import Mathlib

/-!
Verification of the sovereign-mcp MCP server core against its
natural-language specification.

The Python sources under `src/mcp/` are embedded shallowly:

* JSON values are modelled by the inductive `Json` (JSON numbers are
  modelled as integers; no claim involves non-integral numerics).
* Python dicts keyed by strings are modelled as association lists
  `List (String × α)` with first-match lookup; dict assignment updates
  the first matching binding in place and otherwise appends, which is
  Python's insertion-order semantics.
* `asyncio` time is modelled by giving every awaited element of a tool's
  output stream a non-negative integer duration; `asyncio.wait_for`
  with budget `t` completes an element of duration `d` iff `d ≤ t`
  (the tie at `d = t` is a race in the real runtime; the convention is
  fixed here and no claim depends on it).
* pydantic validation errors carry long rendered messages; the model
  abbreviates each such message to a short tag string.  No claim
  inspects these texts.
-/

set_option autoImplicit false

/-- JSON values (Python objects produced by `request.json()`); numbers are
modelled as integers. -/
inductive Json where
  | null
  | bool (b : Bool)
  | num (n : Int)
  | str (s : String)
  | arr (elems : List Json)
  | obj (fields : List (String × Json))

/-- First-match lookup in an association list (Python `dict.get(k)` for a
dict built by insertion, which has unique keys). -/
def assocGet {α : Type} (l : List (String × α)) (k : String) : Option α :=
  match l with
  | [] => none
  | (k', v) :: rest => if k' = k then some v else assocGet rest k

/-- Python `d[k] = v` on a string-keyed dict: replace the first binding of
`k` in place, append when absent. -/
def assocSet {α : Type} (l : List (String × α)) (k : String) (v : α) :
    List (String × α) :=
  match l with
  | [] => [(k, v)]
  | (k', v') :: rest =>
      if k' = k then (k', v) :: rest else (k', v') :: assocSet rest k v

/-- Python `dict.pop(k, None)`: drop the first binding of `k`. -/
def assocErase {α : Type} (l : List (String × α)) (k : String) :
    List (String × α) :=
  match l with
  | [] => []
  | (k', v') :: rest =>
      if k' = k then rest else (k', v') :: assocErase rest k

/-- Python truthiness of a JSON-shaped value (`bool(x)`). -/
def Json.truthy : Json → Bool
  | .null => false
  | .bool b => b
  | .num n => n ≠ 0
  | .str s => s ≠ ""
  | .arr l => !l.isEmpty
  | .obj l => !l.isEmpty

/-- Truthiness of `d.get(k)` (absent key gives Python `None`, falsy). -/
def optTruthy (o : Option Json) : Bool :=
  match o with
  | none => false
  | some v => v.truthy

mutual

/-- Python `repr()` of a JSON-shaped value (used for elements rendered
inside containers; scalar cases are exact). -/
def Json.pyRepr : Json → String
  | .null => "None"
  | .bool b => if b then "True" else "False"
  | .num n => toString n
  | .str s => "\x27" ++ s ++ "\x27"
  | .arr l => "[" ++ pyReprList l ++ "]"
  | .obj l => "\x7b" ++ pyReprObj l ++ "\x7d"

/-- Comma-joined `repr`s of list elements. -/
def pyReprList : List Json → String
  | [] => ""
  | [x] => Json.pyRepr x
  | x :: rest => Json.pyRepr x ++ ", " ++ pyReprList rest

/-- Comma-joined `repr`s of dict entries. -/
def pyReprObj : List (String × Json) → String
  | [] => ""
  | [(k, v)] => "\x27" ++ k ++ "\x27: " ++ Json.pyRepr v
  | (k, v) :: rest =>
      "\x27" ++ k ++ "\x27: " ++ Json.pyRepr v ++ ", " ++ pyReprObj rest

end

/-- Python `str()` of a JSON-shaped value, as interpolated into f-strings
by the server (a string interpolates as itself; containers render via
`repr` of their elements). -/
def Json.pyStr : Json → String
  | .str s => s
  | v => v.pyRepr

/-! ## `mcp/lifecycle_manager.py` — the generic registry -/

/-- `LifecycleManager` (`mcp/lifecycle_manager.py`): a keyed collection with
an injected id extractor.  The Python `_items` dict is the association
list `items`; the injected `on_change` callback is accounted for by the
mutation operations returning the number of times they invoked it. -/
structure LifecycleManager (T : Type) where
  getId : T → String
  items : List (String × T)

/-- Validation pass of `LifecycleManager.add`: walks `items` accumulating
`ids_to_add`, failing on a key already present in the registry or repeated
in the input, in exactly the source's check order. -/
def LifecycleManager.validateAdd {T : Type} (m : LifecycleManager T)
    (idsToAdd : List String) : List T → Option String
  | [] => none
  | item :: rest =>
      let itemId := m.getId item
      if (assocGet m.items itemId).isSome then
        some ("Transaction failed: Item \x27" ++ itemId ++ "\x27 already exists.")
      else if idsToAdd.contains itemId then
        some ("Transaction failed: Duplicate item \x27" ++ itemId ++ "\x27 in input list.")
      else
        m.validateAdd (itemId :: idsToAdd) rest

/-- `LifecycleManager.add(items, notify)`: empty input returns immediately;
otherwise the whole batch is validated before any write, then every item is
written with `self._items[id] = item`, and `on_change` fires once iff
`notify`.  The returned `Nat` counts `on_change` invocations; a `ValueError`
is an `Except.error` carrying the message. -/
def LifecycleManager.add {T : Type} (m : LifecycleManager T)
    (items : List T) (notify : Bool) :
    Except String (LifecycleManager T × Nat) :=
  if items.isEmpty then .ok (m, 0)
  else
    match m.validateAdd [] items with
    | some msg => .error msg
    | none =>
        let newItems :=
          items.foldl (fun acc item => assocSet acc (m.getId item) item) m.items
        .ok ({ m with items := newItems }, if notify then 1 else 0)

/-! ## Basic facts about the registry -/

theorem assocGet_append_of_ne {α : Type} (l : List (String × α)) (k k' : String)
    (v : α) (h : k' ≠ k) :
    assocGet (l ++ [(k, v)]) k' = assocGet l k' := by
  induction l with
  | nil => simp [assocGet, Ne.symm h]
  | cons hd tl ih =>
      by_cases hk : hd.1 = k'
      · simp [assocGet, hk]
      · simp [assocGet, hk, ih]

theorem assocSet_of_not_mem {α : Type} (l : List (String × α)) (k : String)
    (v : α) (h : assocGet l k = none) :
    assocSet l k v = l ++ [(k, v)] := by
  induction l with
  | nil => simp [assocSet]
  | cons hd tl ih =>
      simp only [assocGet] at h
      by_cases hk : hd.1 = k
      · simp [hk] at h
      · simp only [assocSet, hk, if_false]
        simp only [hk, if_false] at h
        simp [ih h]

theorem validateAdd_eq_none {T : Type} (m : LifecycleManager T) :
    ∀ (items : List T) (acc : List String),
      m.validateAdd acc items = none →
      (∀ it ∈ items, assocGet m.items (m.getId it) = none) ∧
      (items.map m.getId).Nodup ∧
      (∀ i ∈ items.map m.getId, i ∉ acc) := by
  intro items
  induction items with
  | nil => intro acc _; simp
  | cons item rest ih =>
      intro acc h
      simp only [LifecycleManager.validateAdd] at h
      by_cases h1 : (assocGet m.items (m.getId item)).isSome
      · simp [h1] at h
      · by_cases h2 : m.getId item ∈ acc
        · simp [h1, h2] at h
        · have h2b : acc.contains (m.getId item) = false := by simpa using h2
          simp only [h1, Bool.false_eq_true, if_false, h2b] at h
          obtain ⟨hFresh, hNodup, hAcc⟩ := ih (m.getId item :: acc) h
          refine ⟨?_, ?_, ?_⟩
          · intro it hit
            rcases List.mem_cons.mp hit with heq | hmem
            · subst heq; exact Option.not_isSome_iff_eq_none.mp h1
            · exact hFresh it hmem
          · refine List.Nodup.cons ?_ hNodup
            intro hmem
            exact hAcc _ hmem (List.mem_cons_self _ _)
          · intro i hi
            rcases List.mem_cons.mp hi with heq | hmem
            · subst heq; exact h2
            · intro hin
              exact hAcc _ hmem (List.mem_cons_of_mem _ hin)

theorem validateAdd_ok {T : Type} (m : LifecycleManager T) :
    ∀ (items : List T) (acc : List String),
      (∀ it ∈ items, assocGet m.items (m.getId it) = none) →
      (items.map m.getId).Nodup →
      (∀ i ∈ items.map m.getId, i ∉ acc) →
      m.validateAdd acc items = none := by
  intro items
  induction items with
  | nil => intro acc _ _ _; rfl
  | cons item rest ih =>
      intro acc hFresh hNodup hAcc
      simp only [LifecycleManager.validateAdd]
      have h1 : assocGet m.items (m.getId item) = none :=
        hFresh item (List.mem_cons_self _ _)
      have h2 : ¬ acc.contains (m.getId item) := by
        simpa using hAcc (m.getId item) (by simp)
      simp only [h1, Option.isSome_none, Bool.false_eq_true, if_false, h2]
      simp only [List.map_cons, List.nodup_cons] at hNodup
      refine ih (m.getId item :: acc) ?_ hNodup.2 ?_
      · intro it hit; exact hFresh it (List.mem_cons_of_mem _ hit)
      · intro i hi
        simp only [List.mem_cons, not_or]
        constructor
        · intro heq; exact hNodup.1 (heq ▸ hi)
        · exact hAcc i (by simp [hi])

theorem foldl_assocSet_append {T : Type} (getId : T → String) :
    ∀ (items : List T) (reg : List (String × T)),
      (∀ it ∈ items, assocGet reg (getId it) = none) →
      (items.map getId).Nodup →
      items.foldl (fun acc it => assocSet acc (getId it) it) reg =
        reg ++ items.map (fun it => (getId it, it)) := by
  intro items
  induction items with
  | nil => intro reg _ _; simp
  | cons item rest ih =>
      intro reg hFresh hNodup
      simp only [List.foldl_cons, List.map_cons]
      rw [assocSet_of_not_mem reg _ _ (hFresh item (by simp))]
      simp only [List.map_cons, List.nodup_cons] at hNodup
      rw [ih (reg ++ [(getId item, item)]) ?_ hNodup.2]
      · simp
      · intro it hit
        rw [assocGet_append_of_ne]
        · exact hFresh it (List.mem_cons_of_mem _ hit)
        · intro heq
          exact hNodup.1 (heq ▸ List.mem_map_of_mem getId hit)

/-- C1 (amended): `add` raises and performs no mutation when the input
contains a repeated id or an id colliding with the registry; on a
*non-empty* clean input it appends every item and fires the change
callback once iff `notify`; an empty input is a silent no-op that never
fires the callback (this last point is where the original claim fails). -/
theorem mcp_C1_theorem {T : Type} (m : LifecycleManager T) (items : List T)
    (notify : Bool) :
    ((¬ (items.map m.getId).Nodup ∨
        ∃ it ∈ items, (assocGet m.items (m.getId it)).isSome) →
      ∃ msg, m.add items notify = .error msg) ∧
    ((items.map m.getId).Nodup →
      (∀ it ∈ items, assocGet m.items (m.getId it) = none) →
      items ≠ [] →
      m.add items notify =
        .ok ({ m with
                items := m.items ++ items.map (fun it => (m.getId it, it)) },
             if notify then 1 else 0)) ∧
    (items = [] → m.add items notify = .ok (m, 0)) := by
  refine ⟨?_, ?_, ?_⟩
  · intro hbad
    cases hval : m.validateAdd [] items with
    | some msg =>
        refine ⟨msg, ?_⟩
        have hne : items ≠ [] := by
          intro h; subst h; simp [LifecycleManager.validateAdd] at hval
        simp [LifecycleManager.add, List.isEmpty_iff, hne, hval]
    | none =>
        exfalso
        obtain ⟨hFresh, hNodup, _⟩ := validateAdd_eq_none m items [] hval
        rcases hbad with hdup | ⟨it, hit, hsome⟩
        · exact hdup hNodup
        · rw [hFresh it hit] at hsome; simp at hsome
  · intro hNodup hFresh hne
    have hval : m.validateAdd [] items = none :=
      validateAdd_ok m items [] hFresh hNodup (by simp)
    simp only [LifecycleManager.add, List.isEmpty_iff, hne, if_false, hval]
    rw [foldl_assocSet_append m.getId items m.items hFresh hNodup]
  · intro h; subst h; rfl

/-- The registry instance used in concrete evaluations: ids are the items
themselves. -/
def strReg : LifecycleManager String := ⟨fun s => s, []⟩

/-- C1 counterexample: `add([], notify=True)` performs the claim's
"otherwise" branch (no duplicate, no collision) yet invokes the change
callback zero times, not exactly once. -/
theorem mcp_C1_counterexample :
    strReg.add [] true = .ok (strReg, 0) ∧
    ∀ r : LifecycleManager String, strReg.add [] true ≠ .ok (r, 1) := by
  refine ⟨rfl, ?_⟩
  intro r h
  rw [show strReg.add [] true = .ok (strReg, 0) from rfl] at h
  injection h with h'
  have : (0 : Nat) = 1 := congrArg Prod.snd h'
  simp at this

/-- C1 witness: the amended theorem applied at a clean two-element input
and at an input with an internal duplicate. -/
theorem mcp_C1_witness :
    (strReg.add ["a", "b"] true =
      .ok ({ strReg with
              items := strReg.items ++
                ["a", "b"].map (fun it => (strReg.getId it, it)) }, 1)) ∧
    (∃ msg, strReg.add ["a", "a"] true = .error msg) ∧
    (strReg.add [] true = .ok (strReg, 0)) := by
  refine ⟨?_, ?_, ?_⟩
  · exact (mcp_C1_theorem strReg ["a", "b"] true).2.1 (by decide)
      (by intro it _; rfl) (by simp)
  · exact (mcp_C1_theorem strReg ["a", "a"] true).1 (Or.inl (by decide))
  · exact (mcp_C1_theorem strReg [] true).2.2 rfl

/-! ## Wire schemas (`mcp/schemas/*.py`) -/

def PARSE_ERROR : Int := -32700
def INVALID_REQUEST : Int := -32600
def METHOD_NOT_FOUND : Int := -32601
def INVALID_PARAMS : Int := -32602
def INTERNAL_ERROR : Int := -32603
def RESOURCE_NOT_FOUND : Int := -32002

/-- A JSON-RPC id (`Union[str, int]`). -/
inductive RpcId where
  | str (s : String)
  | num (n : Int)
deriving DecidableEq

/-- `JsonRpcRequest` after pydantic validation.  The `jsonrpc` field is the
literal `"2.0"` on every validated instance and is therefore not stored. -/
structure JsonRpcRequest where
  method : String
  params : Option (List (String × Json)) := none
  id : Option RpcId := none

/-- `ResourceDataText` / `ResourceDataBinary`. -/
inductive ResourceData where
  | textData (uri mimeType text : String)
  | binData (uri mimeType blob : String)

/-- The `ToolContent` union.  The optional `annotations` metadata is
omitted: the engine passes content through without reading it, the
envelopes it builds itself always leave `annotations` unset, and no claim
mentions it. -/
inductive ToolContent where
  | text (text : String)
  | image (data mimeType : String)
  | audio (data mimeType : String)
  | resource (resource : ResourceData)
  | resourceLink (uri name : String) (description : Option String)
      (mimeType : String)

/-- `ToolsCallResult`. -/
structure ToolsCallResult where
  content : List ToolContent := []
  structuredContent : Option (List (String × Json)) := none
  isError : Bool := false

/-- `ToolProgress`; the float fields are modelled as integers (the engine
copies them verbatim and no claim involves their arithmetic). -/
structure ToolProgress where
  progress : Int
  total : Option Int := none
  message : Option String := none

/-- `ToolResult`. -/
structure ToolResult where
  content : List ToolContent
  structuredContent : Option (List (String × Json)) := none
  isError : Bool := false

/-- One element produced by a streaming tool, as classified by the
engine's `isinstance` chain; `other` is an output of unknown type (logged
and skipped), `raiseExc` is an exception raised by the producer's
`__anext__`. -/
inductive StreamItem where
  | progress (p : ToolProgress)
  | result (r : ToolResult)
  | other
  | raiseExc (msg : String)

/-- What `tool.func(args)` returns, with the asyncio time each await
takes: a lazy sequence of timed items, a single awaitable (duration plus
result or raised exception), a value of invalid type, or a synchronous
exception from the call itself. -/
inductive ToolReturn where
  | stream (items : List (Nat × StreamItem))
  | single (duration : Nat) (outcome : Except String ToolResult)
  | invalid (typeName : String)
  | raises (msg : String)

/-- `Icon` (`mcp/schemas/common.py`). -/
structure Icon where
  src : String
  mimeType : String
  sizes : List String := []

/-- `ToolDefinition` as stored after construction. -/
structure ToolDefinition where
  name : String
  title : Option String := none
  description : String
  inputSchema : List (String × Json)
  outputSchema : Option (List (String × Json)) := none
  icons : Option (List Icon) := none

/-- `Tool`: registered tool with its behaviour and timeout (seconds). -/
structure Tool where
  func : Json → ToolReturn
  definition : ToolDefinition
  timeout : Int := 60

structure PromptArgument where
  name : String
  description : Option String := none
  required : Bool

structure PromptDefinition where
  name : String
  title : Option String := none
  description : Option String := none
  arguments : List PromptArgument := []
  icons : Option (List Icon) := none

/-- The `PromptMessage.content` union. -/
inductive PromptContent where
  | text (text : String)
  | image (data mimeType : String)
  | audio (data mimeType : String)
  | resource (resource : ResourceData)

structure PromptMessage where
  role : String := "user"
  content : PromptContent

structure PromptsGetResult where
  description : Option String := none
  messages : List PromptMessage

/-- `Prompt`: `func` models the awaited coroutine as the asyncio duration
of the await together with its outcome (a result or a raised exception's
message). -/
structure Prompt where
  func : Json → Nat × Except String PromptsGetResult
  definition : PromptDefinition
  timeout : Int := 3

/-- `ResourceDefinition`; the optional `annotations` metadata is omitted
as for `ToolContent`. -/
structure ResourceDefinition where
  uri : String
  name : String
  title : Option String := none
  description : Option String := none
  mimeType : Option String := none
  size : Option Int := none
  icons : Option (List Icon) := none

structure Resource where
  definition : ResourceDefinition
  data : ResourceData

structure ResourceTemplate where
  uriTemplate : String
  name : String
  title : Option String := none
  description : Option String := none
  mimeType : Option String := none
  icons : Option (List Icon) := none

/-- `ServerCapabilities` (`mcp/schemas/other.py`); the `Dict[str, Any]`
fields are JSON objects. -/
structure ServerCapabilities where
  logging : Option (List (String × Json)) := none
  prompts : List (String × Json)
  resources : List (String × Json)
  tools : List (String × Json)

/-- `ServerCapabilities.new()`. -/
def ServerCapabilities.new : ServerCapabilities where
  prompts := [("listChanged", .bool true)]
  resources := [("subscribe", .bool true), ("listChanged", .bool true)]
  tools := [("listChanged", .bool true)]

structure ServerInfo where
  name : String
  version : String
deriving DecidableEq

structure JsonRpcResponseInitializeResult where
  protocolVersion : String := "2025-11-25"
  capabilities : ServerCapabilities
  serverInfo : ServerInfo
  instructions : Option String := none

/-- `JsonRpcResponseInitializeResult.new(name, version)`. -/
def JsonRpcResponseInitializeResult.new (name version : String) :
    JsonRpcResponseInitializeResult where
  capabilities := ServerCapabilities.new
  serverInfo := ⟨name, version⟩

/-! ## `mcp/server.py` — the MCP server -/

/-- `MCPServer`: the four registries.  The subscriber list and the
change-callback wiring are modelled at the router level
(`MCPRouter.broadcast_event`). -/
structure MCPServer where
  name : String
  tools : LifecycleManager Tool
  prompts : LifecycleManager Prompt
  resources : LifecycleManager Resource
  resources_templates : LifecycleManager ResourceTemplate

/-- `MCPServer.VERSION`. -/
def MCPServer.VERSION : String := "1.0.0"

/-- Which yield site of the engine produced a `tools/call` response
envelope.  This is a ghost annotation: it carries no wire data and only
names the originating branch of `_handle_tool_call`. -/
inductive RespSrc where
  | fromResult
  | notFound
  | invalidType
  | noResult
  | timedOut
  | excCaught
deriving DecidableEq

/-- One item yielded by the dispatcher `process_request` (a response,
notification, error, or a literal `yield None`). -/
inductive OutItem where
  | yieldNone
  | initResponse (id : Option RpcId) (result : JsonRpcResponseInitializeResult)
  | pingResponse (id : Option RpcId)
  | rpcError (id : Option RpcId) (code : Int) (message : String)
      (data : Option Json)
  | toolsListResponse (id : RpcId) (tools : List ToolDefinition)
  | toolsCallResponse (id : RpcId) (result : ToolsCallResult) (src : RespSrc)
  | progressNote (progressToken : RpcId) (progress : Int) (total : Option Int)
      (message : Option String)
  | promptsListResponse (id : RpcId) (prompts : List PromptDefinition)
  | promptsGetResponse (id : RpcId) (result : PromptsGetResult)
  | resourcesListResponse (id : RpcId) (resources : List ResourceDefinition)
  | resourcesReadResponse (id : RpcId) (contents : List ResourceData)
  | templatesListResponse (id : RpcId) (templates : List ResourceTemplate)

/-- Constructing `ToolsResponse(id=..., result=...)`: its `id` field is a
required `Union[str, int]`, so an id-less request makes pydantic raise. -/
def mkToolsResponse (reqId : Option RpcId) (result : ToolsCallResult)
    (src : RespSrc) : Except String OutItem :=
  match reqId with
  | some i => .ok (.toolsCallResponse i result src)
  | none => .error "ValidationError: ToolsResponse.id"

/-- `ProgressNotificationParams.progressToken` is `Union[str, int]`: any
other runtime value makes pydantic raise (pydantic v2 does not coerce
`bool` to `int`; no claim depends on that corner). -/
def validTokenId : Json → Option RpcId
  | .str s => some (.str s)
  | .num n => some (.num n)
  | _ => none

/-- Constructing the `notifications/progress` item for one `ToolProgress`. -/
def mkProgressNote (token : Json) (p : ToolProgress) : Except String OutItem :=
  match validTokenId token with
  | some t => .ok (.progressNote t p.progress p.total p.message)
  | none => .error "ValidationError: ProgressNotificationParams.progressToken"

/-- `params.get("progressToken") or params.get("_meta", {}).get("progressToken")`,
with Python `or` truthiness, the `AttributeError` raised when `_meta` is
present but not a dict, and `null` mapping to Python `None` (treated as
absent by the `is not None` test downstream). -/
def extractProgressToken (params : List (String × Json)) :
    Except String (Option Json) :=
  let a := assocGet params "progressToken"
  if optTruthy a then .ok a
  else
    match assocGet params "_meta" with
    | none => .ok none
    | some (.obj kvs) =>
        match assocGet kvs "progressToken" with
        | none => .ok none
        | some .null => .ok none
        | some v => .ok (some v)
    | some _ => .error "AttributeError: get"

/-- The tool-level timeout result
(`Tool execution timed out (<N>s).`). -/
def timeoutCallResult (timeout : Int) : ToolsCallResult where
  content := [.text ("Tool execution timed out (" ++ toString timeout ++ "s).")]
  isError := true

/-- The degenerate-sequence result
(`Tool '<name>' finished without returning a result.`). -/
def noResultCallResult (toolName : String) : ToolsCallResult where
  content := [.text ("Tool \x27" ++ toolName ++ "\x27 finished without returning a result.")]
  isError := true

/-- A `yield ToolsResponse(...)` reached through the engine's
`except Exception as e` clause; for an id-less request the construction
raises again and the exception escapes the generator. -/
def exceptClause (reqId : Option RpcId) (msg : String) :
    List OutItem × Option String :=
  match mkToolsResponse reqId
      { content := [.text ("Internal Tool Error: " ++ msg)], isError := true }
      .excCaught with
  | .ok it => ([it], none)
  | .error e => ([], some e)

/-- A `yield ToolsResponse(...)` inside the body of the engine's `try`:
a construction failure is caught by the sibling `except Exception`
clause. -/
def emitInTry (reqId : Option RpcId) (result : ToolsCallResult)
    (src : RespSrc) : List OutItem × Option String :=
  match mkToolsResponse reqId result src with
  | .ok it => ([it], none)
  | .error e => exceptClause reqId e

/-- A `yield ToolsResponse(...)` inside the `except asyncio.TimeoutError`
clause: a construction failure escapes the generator directly. -/
def emitTimeout (reqId : Option RpcId) (timeout : Int) :
    List OutItem × Option String :=
  match mkToolsResponse reqId (timeoutCallResult timeout) .timedOut with
  | .ok it => ([it], none)
  | .error e => ([], some e)

/-- The engine's consumption loop (`while True` in `_handle_tool_call`):
before each await the remaining budget to the single deadline is
recomputed and a non-positive remainder raises `TimeoutError`; each
`__anext__` is awaited under `asyncio.wait_for` with exactly that
remainder, so an element whose duration exceeds it times the call out.
Returns the yielded items and, when an exception escapes the generator,
its tag. -/
def consumeStream (toolName : String) (reqId : Option RpcId) (timeout : Int)
    (token : Option Json) :
    Nat → List (Nat × StreamItem) → List OutItem × Option String
  | elapsed, items =>
    if timeout - (elapsed : Int) ≤ 0 then emitTimeout reqId timeout
    else
      match items with
      | [] => emitInTry reqId (noResultCallResult toolName) .noResult
      | (d, item) :: rest =>
          if (d : Int) > timeout - (elapsed : Int) then emitTimeout reqId timeout
          else
            match item with
            | .progress p =>
                match token with
                | none => consumeStream toolName reqId timeout token (elapsed + d) rest
                | some tv =>
                    match mkProgressNote tv p with
                    | .ok note =>
                        let r := consumeStream toolName reqId timeout token (elapsed + d) rest
                        (note :: r.1, r.2)
                    | .error e => exceptClause reqId e
            | .result r =>
                emitInTry reqId
                  { content := r.content, structuredContent := r.structuredContent,
                    isError := r.isError } .fromResult
            | .other => consumeStream toolName reqId timeout token (elapsed + d) rest
            | .raiseExc msg => exceptClause reqId msg

/-- `MCPServer._handle_tool_call`: parameter checks, tool resolution, and
execution under the single deadline.  Returns the yielded items paired
with the tag of an exception escaping the generator (caught one level up
by `process_request`). -/
def MCPServer.handle_tool_call (server : MCPServer)
    (request : JsonRpcRequest) : List OutItem × Option String :=
  match request.params with
  | none =>
      ([.rpcError request.id INVALID_PARAMS "Params must be a dictionary" none], none)
  | some params =>
      let toolName := assocGet params "name"
      match extractProgressToken params with
      | .error e => ([], some e)
      | .ok token =>
          if !(optTruthy toolName) then
            ([.rpcError request.id INVALID_PARAMS "Missing \x27name\x27" none], none)
          else
            let nameVal := toolName.getD .null
            match (match nameVal with
                   | .str s => assocGet server.tools.items s
                   | _ => none) with
            | none =>
                match mkToolsResponse request.id
                    { content := [.text ("Tool \x27" ++ Json.pyStr nameVal ++ "\x27 not found.")],
                      isError := true } .notFound with
                | .ok it => ([it], none)
                | .error e => ([], some e)
            | some tool =>
                let args := (assocGet params "arguments").getD (.obj [])
                match tool.func args with
                | .raises msg => exceptClause request.id msg
                | .invalid typeName =>
                    emitInTry request.id
                      { content := [.text ("Invalid tool return type: " ++ typeName)],
                        isError := true } .invalidType
                | .single d outcome =>
                    consumeStream (Json.pyStr nameVal) request.id tool.timeout token 0
                      [(d, match outcome with
                           | .ok r => .result r
                           | .error m => .raiseExc m)]
                | .stream items =>
                    consumeStream (Json.pyStr nameVal) request.id tool.timeout token 0 items

/-! ## Emission structure of the tool-call engine -/

/-- Whether an item is a progress notification. -/
def OutItem.isProgressNote : OutItem → Bool
  | .progressNote _ _ _ _ => true
  | _ => false

/-- Whether an item is the `tools/call` response envelope built from a
`ToolResult` produced by the tool (as opposed to an engine-made error
envelope). -/
def OutItem.isResultEnvelope : OutItem → Bool
  | .toolsCallResponse _ _ .fromResult => true
  | _ => false

/-- Whether an item is a JSON-RPC error. -/
def OutItem.isRpcError : OutItem → Bool
  | .rpcError _ _ _ _ => true
  | _ => false

theorem exceptClause_len (r : Option RpcId) (m : String) :
    (exceptClause r m).1.length ≤ 1 := by
  unfold exceptClause mkToolsResponse
  cases r <;> simp

theorem emitInTry_len (r : Option RpcId) (res : ToolsCallResult) (src : RespSrc) :
    (emitInTry r res src).1.length ≤ 1 := by
  unfold emitInTry mkToolsResponse
  cases r
  · exact exceptClause_len none _
  · simp

theorem emitTimeout_len (r : Option RpcId) (t : Int) :
    (emitTimeout r t).1.length ≤ 1 := by
  unfold emitTimeout mkToolsResponse
  cases r <;> simp

theorem consumeStream_shape (toolName : String) (reqId : Option RpcId)
    (timeout : Int) (token : Option Json) :
    ∀ (items : List (Nat × StreamItem)) (elapsed : Nat),
      ∃ notes tail,
        (consumeStream toolName reqId timeout token elapsed items).1 =
          notes ++ tail ∧
        (∀ e ∈ notes, e.isProgressNote = true) ∧
        tail.length ≤ 1 := by
  intro items
  induction items with
  | nil =>
      intro elapsed
      simp only [consumeStream]
      split
      · exact ⟨[], _, rfl, by simp, emitTimeout_len reqId timeout⟩
      · exact ⟨[], _, rfl, by simp, emitInTry_len reqId _ _⟩
  | cons hd rest ih =>
      intro elapsed
      obtain ⟨d, item⟩ := hd
      simp only [consumeStream]
      split
      · exact ⟨[], _, rfl, by simp, emitTimeout_len reqId timeout⟩
      · split
        · exact ⟨[], _, rfl, by simp, emitTimeout_len reqId timeout⟩
        · match item with
          | .progress p =>
              match token with
              | none => exact ih (elapsed + d)
              | some tv =>
                  rcases hnote : mkProgressNote tv p with e | note
                  · refine ⟨[], (exceptClause reqId e).1, ?_, by simp,
                      exceptClause_len reqId e⟩
                    simp only [hnote]
                    simp
                  · obtain ⟨notes, tail, h1, h2, h3⟩ := ih (elapsed + d)
                    refine ⟨note :: notes, tail, ?_, ?_, h3⟩
                    · simp only [hnote]
                      simp [h1]
                    · intro e he
                      rcases List.mem_cons.mp he with heq | hmem
                      · subst heq
                        unfold mkProgressNote at hnote
                        rcases hv : validTokenId tv with _ | t <;> rw [hv] at hnote
                        · simp at hnote
                        · cases hnote
                          rfl
                      · exact h2 e hmem
          | .result r => exact ⟨[], _, rfl, by simp, emitInTry_len reqId _ _⟩
          | .other => exact ih (elapsed + d)
          | .raiseExc msg =>
              exact ⟨[], _, rfl, by simp, exceptClause_len reqId msg⟩

theorem handle_tool_call_shape (server : MCPServer) (request : JsonRpcRequest) :
    ∃ notes tail,
      (server.handle_tool_call request).1 = notes ++ tail ∧
      (∀ e ∈ notes, e.isProgressNote = true) ∧
      tail.length ≤ 1 := by
  unfold MCPServer.handle_tool_call
  rcases request.params with _ | params
  · exact ⟨[], _, rfl, by simp, by simp⟩
  · simp only []
    rcases htok : extractProgressToken params with e | token
    · exact ⟨[], [], by simp, by simp, by simp⟩
    · simp only []
      split
      · exact ⟨[], _, rfl, by simp, by simp⟩
      · split
        · split
          · exact ⟨[], _, rfl, by simp, by simp⟩
          · exact ⟨[], [], rfl, by simp, by simp⟩
        · split
          · exact ⟨[], _, rfl, by simp, exceptClause_len _ _⟩
          · exact ⟨[], _, rfl, by simp, emitInTry_len _ _ _⟩
          · exact consumeStream_shape _ _ _ _ _ 0
          · exact consumeStream_shape _ _ _ _ _ 0

/-- C2 (confirmed): over the items the engine emits for one `tools/call`
invocation, at most one is the response envelope carrying a `ToolResult`,
and no such envelope is followed by anything — every emitted progress
notification precedes it. -/
theorem mcp_C2_theorem (server : MCPServer) (request : JsonRpcRequest) :
    (server.handle_tool_call request).1.countP (fun e => e.isResultEnvelope) ≤ 1 ∧
    (server.handle_tool_call request).1.dropLast.all
      (fun e => !e.isResultEnvelope) = true := by
  obtain ⟨notes, tail, h1, h2, h3⟩ := handle_tool_call_shape server request
  constructor
  · rw [h1, List.countP_append]
    have hz : notes.countP (fun e => e.isResultEnvelope) = 0 := by
      rw [List.countP_eq_zero]
      intro e he
      have := h2 e he
      cases e <;> simp_all [OutItem.isProgressNote, OutItem.isResultEnvelope]
    rw [hz]
    calc 0 + tail.countP (fun e => e.isResultEnvelope)
        = tail.countP (fun e => e.isResultEnvelope) := by ring
      _ ≤ tail.length := List.countP_le_length _
      _ ≤ 1 := h3
  · rw [h1]
    rw [List.all_eq_true]
    intro e he
    have hmem : e ∈ notes := by
      rcases tail with _ | ⟨t, rest⟩
      · have : (notes ++ []).dropLast.Sublist notes := by
          simpa using List.dropLast_sublist notes
        exact this.mem he
      · rcases rest with _ | ⟨t2, rest2⟩
        · rw [← List.concat_eq_append, List.concat_eq_append,
            List.dropLast_concat] at he
          exact he
        · simp at h3
    have := h2 e hmem
    cases e <;> simp_all [OutItem.isProgressNote, OutItem.isResultEnvelope]

/-- The uri of a resource's data (`id_getter` of the resources registry). -/
def ResourceData.uri : ResourceData → String
  | .textData u _ _ => u
  | .binData u _ _ => u

/-- A server with the registries wired exactly as in `MCPServer.__init__`
and nothing registered (used for concrete evaluations). -/
def emptyServer : MCPServer where
  name := "finance"
  tools := ⟨fun t => t.definition.name, []⟩
  prompts := ⟨fun p => p.definition.name, []⟩
  resources := ⟨fun r => r.data.uri, []⟩
  resources_templates := ⟨fun r => r.name, []⟩

/-- C3 counterexample: a params dict containing the name `""` (which
matches no registered tool) makes the engine yield a JSON-RPC
invalid-params *error*, not the claimed success envelope — `""` is falsy,
so `if not tool_name` fires before resolution. -/
theorem mcp_C3_counterexample :
    emptyServer.handle_tool_call
      { method := "tools/call", params := some [("name", .str "")],
        id := some (.num 1) } =
      ([.rpcError (some (.num 1)) INVALID_PARAMS "Missing \x27name\x27" none], none) ∧
    ((emptyServer.handle_tool_call
      { method := "tools/call", params := some [("name", .str "")],
        id := some (.num 1) }).1.any (fun e => e.isRpcError)) = true := by
  constructor <;> rfl

/-- C3 (amended): for a `tools/call` request that carries an id, whose
params dict binds `"name"` to a non-empty string matching no registered
tool, and whose progress-token extraction does not itself raise, the
engine yields exactly one JSON-RPC success envelope carrying
`ToolsCallResult{isError:true, content:[text("Tool '<name>' not found.")]}`
and no JSON-RPC error. -/
theorem mcp_C3_theorem (server : MCPServer) (i : RpcId)
    (params : List (String × Json)) (s : String) (tok : Option Json)
    (hname : assocGet params "name" = some (.str s))
    (hne : s ≠ "")
    (htok : extractProgressToken params = .ok tok)
    (hmiss : assocGet server.tools.items s = none) :
    server.handle_tool_call
        { method := "tools/call", params := some params, id := some i } =
      ([.toolsCallResponse i
          { content := [.text ("Tool \x27" ++ s ++ "\x27 not found.")],
            structuredContent := none, isError := true } .notFound], none) ∧
    ∀ e ∈ (server.handle_tool_call
        { method := "tools/call", params := some params, id := some i }).1,
      e.isRpcError = false := by
  have hmain : server.handle_tool_call
      { method := "tools/call", params := some params, id := some i } =
      ([.toolsCallResponse i
          { content := [.text ("Tool \x27" ++ s ++ "\x27 not found.")],
            structuredContent := none, isError := true } .notFound], none) := by
    unfold MCPServer.handle_tool_call
    simp only [htok, hname]
    have htruthy : optTruthy (some (Json.str s)) = true := by
      simp [optTruthy, Json.truthy, hne]
    rw [htruthy]
    simp only [Bool.not_true, Bool.false_eq_true, if_false, Option.getD_some,
      hmiss, mkToolsResponse, Json.pyStr]
  refine ⟨hmain, ?_⟩
  rw [hmain]
  intro e he
  simp only [List.mem_singleton] at he
  subst he
  rfl

/-- C3 witness: the amended theorem applied to a concrete unknown tool
name `"nope"` on a server with an empty tool registry. -/
theorem mcp_C3_witness :
    emptyServer.handle_tool_call
        { method := "tools/call", params := some [("name", .str "nope")],
          id := some (.num 2) } =
      ([.toolsCallResponse (.num 2)
          { content := [.text ("Tool \x27nope\x27 not found.")],
            structuredContent := none, isError := true } .notFound], none) :=
  (mcp_C3_theorem emptyServer (.num 2) [("name", .str "nope")] "nope" none
    rfl (by decide) rfl rfl).1

/-! ## The single deadline of the tool-call engine -/

/-- Sum of the asyncio durations of a stream prefix. -/
def sumDur (items : List (Nat × StreamItem)) : Nat :=
  (items.map Prod.fst).sum

/-- A progress token that the progress-notification constructor accepts
(absent, string, or integer). -/
def tokenOkB : Option Json → Bool
  | none => true
  | some v => (validTokenId v).isSome

/-- A stream element that neither terminates the loop nor raises:
a progress report or an output of unknown type. -/
def cleanItem : Nat × StreamItem → Bool
  | (_, .progress _) => true
  | (_, .other) => true
  | _ => false

theorem consumeStream_timeout (toolName : String) (i : RpcId) (timeout : Int)
    (tok : Option Json) (htokOk : tokenOkB tok = true) :
    ∀ (items : List (Nat × StreamItem)) (k : Nat) (elapsed : Nat),
      (∀ x ∈ items.take k, cleanItem x = true) →
      timeout ≤ (elapsed : Int) + (sumDur (items.take k) : Int) →
      ∃ notes,
        consumeStream toolName (some i) timeout tok elapsed items =
          (notes ++ [.toolsCallResponse i (timeoutCallResult timeout) .timedOut],
           none) ∧
        ∀ e ∈ notes, e.isProgressNote = true := by
  intro items
  induction items with
  | nil =>
      intro k elapsed _ hsum
      simp only [List.take_nil, sumDur, List.map_nil, List.sum_nil,
        Nat.cast_zero, add_zero] at hsum
      simp only [consumeStream]
      rw [if_pos (by omega)]
      exact ⟨[], rfl, by simp⟩
  | cons hd rest ih =>
      intro k elapsed hclean hsum
      obtain ⟨d, item⟩ := hd
      by_cases hpre : timeout - (elapsed : Int) ≤ 0
      · simp only [consumeStream]
        rw [if_pos hpre]
        exact ⟨[], rfl, by simp⟩
      · cases k with
        | zero =>
            exfalso
            simp only [List.take_zero, sumDur, List.map_nil, List.sum_nil,
              Nat.cast_zero, add_zero] at hsum
            omega
        | succ k' =>
            simp only [List.take_succ_cons] at hclean hsum
            have hcleanHd : cleanItem (d, item) = true :=
              hclean _ (List.mem_cons_self _ _)
            have hcleanRest : ∀ x ∈ rest.take k', cleanItem x = true :=
              fun x hx => hclean x (List.mem_cons_of_mem _ hx)
            have hsum' : timeout ≤ ((elapsed + d : Nat) : Int) +
                (sumDur (rest.take k') : Int) := by
              have hc : sumDur ((d, item) :: rest.take k') =
                  d + sumDur (rest.take k') := by
                simp [sumDur]
              rw [hc] at hsum
              push_cast at hsum ⊢
              omega
            simp only [consumeStream]
            rw [if_neg hpre]
            by_cases hd2 : (d : Int) > timeout - (elapsed : Int)
            · rw [if_pos hd2]
              exact ⟨[], rfl, by simp⟩
            · rw [if_neg hd2]
              match item with
              | .progress p =>
                  match tok with
                  | none => exact ih k' (elapsed + d) hcleanRest hsum'
                  | some tv =>
                      simp only [tokenOkB, Option.isSome_iff_exists] at htokOk
                      obtain ⟨t, ht⟩ := htokOk
                      have hnote : mkProgressNote tv p =
                          .ok (.progressNote t p.progress p.total p.message) := by
                        simp [mkProgressNote, ht]
                      obtain ⟨notes, h1, h2⟩ := ih k' (elapsed + d) hcleanRest hsum'
                      refine ⟨.progressNote t p.progress p.total p.message :: notes,
                        ?_, ?_⟩
                      · simp [hnote, h1]
                      · intro e he
                        rcases List.mem_cons.mp he with heq | hmem
                        · subst heq; rfl
                        · exact h2 e hmem
              | .other => exact ih k' (elapsed + d) hcleanRest hsum'

/-- A one-tool server whose tool `slow` (timeout 1s) produces a single
unknown-typed element only after 2s. -/
def slowServer : MCPServer :=
  { emptyServer with
    tools := ⟨fun t => t.definition.name,
      [("slow", { func := fun _ => .stream [(2, .other)],
                  definition := { name := "slow", description := "slow tool",
                                  inputSchema := [] },
                  timeout := 1 })]⟩ }

/-- C4 counterexample: invoking the existing tool `slow` without a request
id makes the deadline expire, but the engine emits *no* success envelope —
constructing `ToolsResponse(id=None, ...)` raises, and the exception
escapes the generator.  The same invocation with an id does emit the
claimed envelope, showing that only the missing id breaks the claim. -/
theorem mcp_C4_counterexample :
    slowServer.handle_tool_call
      { method := "tools/call", params := some [("name", .str "slow")],
        id := none } =
      ([], some "ValidationError: ToolsResponse.id") ∧
    slowServer.handle_tool_call
      { method := "tools/call", params := some [("name", .str "slow")],
        id := some (.num 7) } =
      ([.toolsCallResponse (.num 7) (timeoutCallResult 1) .timedOut], none) := by
  constructor <;> rfl

/-- C4 (amended): for every `tools/call` invocation *carrying an id* of an
existing tool returning a stream, consumption is bounded by the single
deadline `now + tool.timeout` computed at invocation start: whenever the
cumulative duration of a prefix of non-terminal elements reaches the
budget — even though each element alone may be quick — the engine emits
exactly one success envelope with `isError=true` and text
`Tool execution timed out (<N>s).` where `<N>` is `tool.timeout`,
preceded only by progress notifications. -/
theorem mcp_C4_theorem (server : MCPServer) (i : RpcId)
    (params : List (String × Json)) (s : String) (tool : Tool)
    (tok : Option Json) (items : List (Nat × StreamItem)) (k : Nat)
    (hname : assocGet params "name" = some (.str s))
    (hne : s ≠ "")
    (htok : extractProgressToken params = .ok tok)
    (htokOk : tokenOkB tok = true)
    (hfound : assocGet server.tools.items s = some tool)
    (hstream : tool.func ((assocGet params "arguments").getD (.obj [])) =
      .stream items)
    (hclean : ∀ x ∈ items.take k, cleanItem x = true)
    (hsum : tool.timeout ≤ (sumDur (items.take k) : Int)) :
    ∃ notes,
      server.handle_tool_call
          { method := "tools/call", params := some params, id := some i } =
        (notes ++ [.toolsCallResponse i (timeoutCallResult tool.timeout) .timedOut],
         none) ∧
      ∀ e ∈ notes, e.isProgressNote = true := by
  have hred : server.handle_tool_call
      { method := "tools/call", params := some params, id := some i } =
      consumeStream s (some i) tool.timeout tok 0 items := by
    unfold MCPServer.handle_tool_call
    simp only [htok, hname]
    have htruthy : optTruthy (some (Json.str s)) = true := by
      simp [optTruthy, Json.truthy, hne]
    rw [htruthy]
    simp only [Bool.not_true, Bool.false_eq_true, if_false, Option.getD_some,
      hfound, hstream, Json.pyStr]
  rw [hred]
  exact consumeStream_timeout s i tool.timeout tok htokOk items k 0 hclean
    (by simpa using hsum)

/-- A one-tool server whose tool `trickle` (timeout 2s) yields three
unknown-typed elements of 1s each: no single await exceeds the budget,
only their sum does. -/
def trickleServer : MCPServer :=
  { emptyServer with
    tools := ⟨fun t => t.definition.name,
      [("trickle", { func := fun _ => .stream [(1, .other), (1, .other), (1, .other)],
                     definition := { name := "trickle",
                                     description := "trickle tool",
                                     inputSchema := [] },
                     timeout := 2 })]⟩ }

/-- C4 witness: the amended theorem applied to `trickle`, whose elements
each take 1s (< 2s timeout) but whose cumulative 3s exceeds the single
deadline — a fresh per-element timeout would never fire here. -/
theorem mcp_C4_witness :
    ∃ notes,
      trickleServer.handle_tool_call
          { method := "tools/call", params := some [("name", .str "trickle")],
            id := some (.num 3) } =
        (notes ++ [.toolsCallResponse (.num 3) (timeoutCallResult 2) .timedOut],
         none) ∧
      ∀ e ∈ notes, e.isProgressNote = true :=
  mcp_C4_theorem trickleServer (.num 3) [("name", .str "trickle")] "trickle"
    { func := fun _ => .stream [(1, .other), (1, .other), (1, .other)],
      definition := { name := "trickle", description := "trickle tool",
                      inputSchema := [] },
      timeout := 2 }
    none [(1, .other), (1, .other), (1, .other)] 3
    rfl (by decide) rfl rfl rfl rfl (by decide) (by norm_num [sumDur])

/-! ## Dispatcher (`MCPServer.process_request`) -/

/-- Constructing a response model whose `id` field is a required
`Union[str, int]` (`ToolsResponse`, `PromptsResponse`, `ResourcesResponse`):
an id-less request makes pydantic raise. -/
def requireRespId (reqId : Option RpcId) (tag : String) : Except String RpcId :=
  match reqId with
  | some i => .ok i
  | none => .error tag

/-- `MCPServer._handle_initialize`. -/
def MCPServer.handle_initialize (server : MCPServer)
    (request : JsonRpcRequest) : OutItem :=
  .initResponse request.id
    (JsonRpcResponseInitializeResult.new server.name MCPServer.VERSION)

/-- `MCPServer._handle_tools_list`. -/
def MCPServer.handle_tools_list (server : MCPServer)
    (request : JsonRpcRequest) : Except String OutItem := do
  let i ← requireRespId request.id "ValidationError: ToolsResponse.id"
  return .toolsListResponse i (server.tools.items.map (fun kv => kv.2.definition))

/-- `MCPServer._handle_prompts_list`. -/
def MCPServer.handle_prompts_list (server : MCPServer)
    (request : JsonRpcRequest) : Except String OutItem := do
  let i ← requireRespId request.id "ValidationError: PromptsResponse.id"
  return .promptsListResponse i
    (server.prompts.items.map (fun kv => kv.2.definition))

/-- `MCPServer._handle_prompts_get`: parameter checks, prompt resolution,
and the awaited `prompt.func` under `asyncio.wait_for(prompt.timeout)`;
an exception other than `TimeoutError` propagates to `process_request`. -/
def MCPServer.handle_prompts_get (server : MCPServer)
    (request : JsonRpcRequest) : Except String OutItem :=
  match request.params with
  | none =>
      .ok (.rpcError request.id INVALID_PARAMS "Params must be a dictionary" none)
  | some params =>
      let pname := assocGet params "name"
      if !(optTruthy pname) then
        .ok (.rpcError request.id INVALID_PARAMS
          "Missing \x27name\x27 in parameters" none)
      else
        let nameVal := pname.getD .null
        match (match nameVal with
               | .str s => assocGet server.prompts.items s
               | _ => none) with
        | none =>
            .ok (.rpcError request.id INVALID_PARAMS
              ("Prompt \x27" ++ Json.pyStr nameVal ++ "\x27 not found") none)
        | some prompt =>
            let args := (assocGet params "arguments").getD (.obj [])
            let run := prompt.func args
            if (run.1 : Int) > prompt.timeout then
              .ok (.rpcError request.id INTERNAL_ERROR
                ("Prompt \x27" ++ Json.pyStr nameVal ++ "\x27 timed out (> " ++
                  toString prompt.timeout ++ "s).") none)
            else
              match run.2 with
              | .error msg => .error msg
              | .ok r => do
                  let i ← requireRespId request.id
                    "ValidationError: PromptsResponse.id"
                  return .promptsGetResponse i r

/-- `MCPServer._handle_resources_list`. -/
def MCPServer.handle_resources_list (server : MCPServer)
    (request : JsonRpcRequest) : Except String OutItem := do
  let i ← requireRespId request.id "ValidationError: ResourcesResponse.id"
  return .resourcesListResponse i
    (server.resources.items.map (fun kv => kv.2.definition))

/-- `MCPServer._handle_resources_read`. -/
def MCPServer.handle_resources_read (server : MCPServer)
    (request : JsonRpcRequest) : Except String OutItem :=
  match request.params with
  | none =>
      .ok (.rpcError request.id INVALID_PARAMS "Params must be a dictionary" none)
  | some params =>
      let uri := assocGet params "uri"
      if !(optTruthy uri) then
        .ok (.rpcError request.id INVALID_PARAMS
          "Missing \x27uri\x27 in parameters" none)
      else
        let uriVal := uri.getD .null
        match (match uriVal with
               | .str s => assocGet server.resources.items s
               | _ => none) with
        | none =>
            .ok (.rpcError request.id RESOURCE_NOT_FOUND "Resource not found"
              (some (.obj [("uri", uriVal)])))
        | some resource => do
            let i ← requireRespId request.id
              "ValidationError: ResourcesResponse.id"
            return .resourcesReadResponse i [resource.data]

/-- `MCPServer._handle_resources_templates_list`. -/
def MCPServer.handle_resources_templates_list (server : MCPServer)
    (request : JsonRpcRequest) : Except String OutItem := do
  let i ← requireRespId request.id "ValidationError: ResourcesResponse.id"
  return .templatesListResponse i (server.resources_templates.items.map (·.2))

/-- The dispatcher's `except Exception` clause: an exception escaping a
handler is converted into one internal-error item ending the sequence. -/
def dispatcherCatch (reqId : Option RpcId) (r : Except String OutItem) :
    List OutItem :=
  match r with
  | .ok it => [it]
  | .error e =>
      [.rpcError reqId INTERNAL_ERROR ("Internal Server Error: " ++ e) none]

/-- `MCPServer.process_request`: method routing with the surrounding
`try/except` converting any escaping exception into a single
internal-error item (already-yielded items stay yielded). -/
def MCPServer.process_request (server : MCPServer)
    (request : JsonRpcRequest) : List OutItem :=
  if request.method = "initialize" then
    [server.handle_initialize request]
  else if request.method = "notifications/initialized" then
    [.yieldNone]
  else if request.method = "ping" then
    [.pingResponse request.id]
  else if request.method = "tools/list" then
    dispatcherCatch request.id (server.handle_tools_list request)
  else if request.method = "tools/call" then
    let r := server.handle_tool_call request
    r.1 ++
      (match r.2 with
       | none => []
       | some e =>
           [.rpcError request.id INTERNAL_ERROR
             ("Internal Server Error: " ++ e) none])
  else if request.method = "prompts/list" then
    dispatcherCatch request.id (server.handle_prompts_list request)
  else if request.method = "prompts/get" then
    dispatcherCatch request.id (server.handle_prompts_get request)
  else if request.method = "resources/list" then
    dispatcherCatch request.id (server.handle_resources_list request)
  else if request.method = "resources/read" then
    dispatcherCatch request.id (server.handle_resources_read request)
  else if request.method = "resources/templates/list" then
    dispatcherCatch request.id (server.handle_resources_templates_list request)
  else
    [.rpcError request.id METHOD_NOT_FOUND
      ("Method \x27" ++ request.method ++ "\x27 not supported") none]

/-- C8 (confirmed): every `initialize` request yields exactly one success
response whose result advertises protocol version `2025-11-25`, the
configured server name with static version `1.0.0`, and the capabilities
`prompts.listChanged`, `resources.subscribe`, `resources.listChanged`,
`tools.listChanged`, all true. -/
theorem mcp_C8_theorem (server : MCPServer) (request : JsonRpcRequest)
    (h : request.method = "initialize") :
    server.process_request request =
      [.initResponse request.id
        (JsonRpcResponseInitializeResult.new server.name "1.0.0")] ∧
    (JsonRpcResponseInitializeResult.new server.name "1.0.0").protocolVersion =
      "2025-11-25" ∧
    (JsonRpcResponseInitializeResult.new server.name "1.0.0").serverInfo =
      ⟨server.name, "1.0.0"⟩ ∧
    (JsonRpcResponseInitializeResult.new server.name "1.0.0").capabilities.prompts =
      [("listChanged", .bool true)] ∧
    (JsonRpcResponseInitializeResult.new server.name "1.0.0").capabilities.resources =
      [("subscribe", .bool true), ("listChanged", .bool true)] ∧
    (JsonRpcResponseInitializeResult.new server.name "1.0.0").capabilities.tools =
      [("listChanged", .bool true)] := by
  refine ⟨?_, rfl, rfl, rfl, rfl, rfl⟩
  simp [MCPServer.process_request, h, MCPServer.handle_initialize,
    MCPServer.VERSION]

/-- C8 witness: the theorem applied to a concrete `initialize` request. -/
theorem mcp_C8_witness :
    emptyServer.process_request { method := "initialize", id := some (.num 1) } =
      [.initResponse (some (.num 1))
        (JsonRpcResponseInitializeResult.new "finance" "1.0.0")] :=
  (mcp_C8_theorem emptyServer { method := "initialize", id := some (.num 1) }
    rfl).1

/-! ## Serialization (`model_dump(exclude_none=True)`) -/

/-- A present optional field, or nothing (`exclude_none=True` drops
`None`-valued fields). -/
def optField (name : String) : Option Json → List (String × Json)
  | none => []
  | some v => [(name, v)]

def dumpRpcId : RpcId → Json
  | .str s => .str s
  | .num n => .num n

/-- `JsonRpcError.model_dump()`: the model's custom `model_serializer`
shapes the output itself (`data` only when present, `id` always present,
possibly null); dump flags do not post-process a custom serializer. -/
def dumpJsonRpcError (id : Option RpcId) (code : Int) (message : String)
    (payload : Option Json) : Json :=
  .obj [("jsonrpc", .str "2.0"),
        ("error", .obj ([("code", .num code), ("message", .str message)] ++
          optField "data" payload)),
        ("id", match id with | none => .null | some i => dumpRpcId i)]

def ServerCapabilities.dump (c : ServerCapabilities) : Json :=
  .obj (optField "logging" (c.logging.map .obj) ++
    [("prompts", .obj c.prompts), ("resources", .obj c.resources),
     ("tools", .obj c.tools)])

def JsonRpcResponseInitializeResult.dump
    (r : JsonRpcResponseInitializeResult) : Json :=
  .obj ([("protocolVersion", .str r.protocolVersion),
         ("capabilities", r.capabilities.dump),
         ("serverInfo", .obj [("name", .str r.serverInfo.name),
                              ("version", .str r.serverInfo.version)])] ++
    optField "instructions" (r.instructions.map .str))

def ResourceData.dump : ResourceData → Json
  | .textData uri mimeType text =>
      .obj [("uri", .str uri), ("mimeType", .str mimeType), ("text", .str text)]
  | .binData uri mimeType blob =>
      .obj [("uri", .str uri), ("mimeType", .str mimeType), ("blob", .str blob)]

def ToolContent.dump : ToolContent → Json
  | .text t => .obj [("type", .str "text"), ("text", .str t)]
  | .image data mimeType =>
      .obj [("type", .str "image"), ("data", .str data),
            ("mimeType", .str mimeType)]
  | .audio data mimeType =>
      .obj [("type", .str "audio"), ("data", .str data),
            ("mimeType", .str mimeType)]
  | .resource rd => .obj [("type", .str "resource"), ("resource", rd.dump)]
  | .resourceLink uri name description mimeType =>
      .obj ([("type", .str "resource_link"), ("uri", .str uri),
             ("name", .str name)] ++
        optField "description" (description.map .str) ++
        [("mimeType", .str mimeType)])

def ToolsCallResult.dump (r : ToolsCallResult) : Json :=
  .obj ([("content", .arr (r.content.map ToolContent.dump))] ++
    optField "structuredContent" (r.structuredContent.map .obj) ++
    [("isError", .bool r.isError)])

def Icon.dump (i : Icon) : Json :=
  .obj [("src", .str i.src), ("mimeType", .str i.mimeType),
        ("sizes", .arr (i.sizes.map .str))]

def ToolDefinition.dump (d : ToolDefinition) : Json :=
  .obj ([("name", .str d.name)] ++ optField "title" (d.title.map .str) ++
    [("description", .str d.description), ("inputSchema", .obj d.inputSchema)] ++
    optField "outputSchema" (d.outputSchema.map .obj) ++
    optField "icons" (d.icons.map (fun l => .arr (l.map Icon.dump))))

def PromptArgument.dump (a : PromptArgument) : Json :=
  .obj ([("name", .str a.name)] ++
    optField "description" (a.description.map .str) ++
    [("required", .bool a.required)])

def PromptDefinition.dump (d : PromptDefinition) : Json :=
  .obj ([("name", .str d.name)] ++ optField "title" (d.title.map .str) ++
    optField "description" (d.description.map .str) ++
    [("arguments", .arr (d.arguments.map PromptArgument.dump))] ++
    optField "icons" (d.icons.map (fun l => .arr (l.map Icon.dump))))

def PromptContent.dump : PromptContent → Json
  | .text t => .obj [("type", .str "text"), ("text", .str t)]
  | .image data mimeType =>
      .obj [("type", .str "image"), ("data", .str data),
            ("mimeType", .str mimeType)]
  | .audio data mimeType =>
      .obj [("type", .str "audio"), ("data", .str data),
            ("mimeType", .str mimeType)]
  | .resource rd => .obj [("type", .str "resource"), ("resource", rd.dump)]

def PromptMessage.dump (m : PromptMessage) : Json :=
  .obj [("role", .str m.role), ("content", m.content.dump)]

def PromptsGetResult.dump (r : PromptsGetResult) : Json :=
  .obj (optField "description" (r.description.map .str) ++
    [("messages", .arr (r.messages.map PromptMessage.dump))])

def ResourceDefinition.dump (d : ResourceDefinition) : Json :=
  .obj ([("uri", .str d.uri), ("name", .str d.name)] ++
    optField "title" (d.title.map .str) ++
    optField "description" (d.description.map .str) ++
    optField "mimeType" (d.mimeType.map .str) ++
    optField "size" (d.size.map .num) ++
    optField "icons" (d.icons.map (fun l => .arr (l.map Icon.dump))))

def ResourceTemplate.dump (t : ResourceTemplate) : Json :=
  .obj ([("uriTemplate", .str t.uriTemplate), ("name", .str t.name)] ++
    optField "title" (t.title.map .str) ++
    optField "description" (t.description.map .str) ++
    optField "mimeType" (t.mimeType.map .str) ++
    optField "icons" (t.icons.map (fun l => .arr (l.map Icon.dump))))

/-- A success envelope `{jsonrpc, id?, result}` under `exclude_none=True`. -/
def dumpEnvelope (id : Option RpcId) (result : Json) : Json :=
  .obj ([("jsonrpc", .str "2.0")] ++ optField "id" (id.map dumpRpcId) ++
    [("result", result)])

/-- `model_dump(exclude_none=True)` of one dispatcher item, as enqueued by
`_process_background` and returned by `_create_session`.  (`yieldNone` is
filtered out before any dump and maps to `null` here only for totality.) -/
def OutItem.dump : OutItem → Json
  | .yieldNone => .null
  | .initResponse id r => dumpEnvelope id r.dump
  | .pingResponse id => dumpEnvelope id (.obj [])
  | .rpcError id code message payload => dumpJsonRpcError id code message payload
  | .toolsListResponse i tools =>
      dumpEnvelope (some i) (.obj [("tools", .arr (tools.map ToolDefinition.dump))])
  | .toolsCallResponse i r _ => dumpEnvelope (some i) r.dump
  | .progressNote t progress total message =>
      .obj [("jsonrpc", .str "2.0"), ("method", .str "notifications/progress"),
            ("params", .obj ([("progressToken", dumpRpcId t),
                              ("progress", .num progress)] ++
              optField "total" (total.map .num) ++
              optField "message" (message.map .str)))]
  | .promptsListResponse i prompts =>
      dumpEnvelope (some i)
        (.obj [("prompts", .arr (prompts.map PromptDefinition.dump))])
  | .promptsGetResponse i r => dumpEnvelope (some i) r.dump
  | .resourcesListResponse i resources =>
      dumpEnvelope (some i)
        (.obj [("resources", .arr (resources.map ResourceDefinition.dump))])
  | .resourcesReadResponse i contents =>
      dumpEnvelope (some i)
        (.obj [("contents", .arr (contents.map ResourceData.dump))])
  | .templatesListResponse i templates =>
      dumpEnvelope (some i)
        (.obj [("resourceTemplates", .arr (templates.map ResourceTemplate.dump))])

/-! ## `mcp/session.py` -/

/-- A message on a session's queue: either a plain dict (the
`model_dump` of a response) or a pydantic model object enqueued as-is.
`json.dumps` in `sse_generator` accepts the former and raises `TypeError`
on the latter, aborting the stream. -/
inductive PyMsg where
  | dictMsg (payload : Json)
  | modelObj (method : String)

/-- Whether `json.dumps` accepts the message. -/
def PyMsg.jsonSerializable : PyMsg → Bool
  | .dictMsg _ => true
  | .modelObj _ => false

/-- `Session`: id, timestamps, outbound FIFO queue, active flag. -/
structure Session where
  id : String
  created_at : Nat
  last_accessed : Nat
  msg_queue : List PyMsg
  active : Bool

/-- `Session.__init__`. -/
def Session.new (session_id : String) (now : Nat) : Session :=
  ⟨session_id, now, now, [], true⟩

/-- `Session.touch`. -/
def Session.touch (s : Session) (now : Nat) : Session :=
  { s with last_accessed := now }

/-- `Session.enqueue_message`: a no-op on an inactive session. -/
def Session.enqueue_message (s : Session) (message : PyMsg) : Session :=
  if !s.active then s else { s with msg_queue := s.msg_queue ++ [message] }

/-- `Session.terminate`: deactivate and drain the queue. -/
def Session.terminate (s : Session) : Session :=
  { s with active := false, msg_queue := [] }

/-! ## `mcp/router.py` -/

/-- HTTP response body as produced by the router. -/
inductive HttpBody where
  | empty
  | text (s : String)
  | jsonBody (j : Json)

/-- An HTTP response: status, body, and the `Mcp-Session-Id` header when
the router sets one. -/
structure HttpResponse where
  status : Nat
  body : HttpBody
  sessionHeader : Option String := none

/-- `MCPRouter`: the owned session table.  `uuid.uuid4()` is modelled by
a counter producing distinct opaque strings (only used when the client
sends no session id; no claim depends on their shape). -/
structure MCPRouter where
  server : MCPServer
  sessions : List (String × Session)
  uuid_counter : Nat

/-- A fresh `str(uuid.uuid4())`. -/
def MCPRouter.genUuid (router : MCPRouter) : String × MCPRouter :=
  ("uuid-" ++ toString router.uuid_counter,
   { router with uuid_counter := router.uuid_counter + 1 })

/-- `MCPRouter._broadcast_event`: enqueue the notification *object
itself* (not its `model_dump`) onto every active session's queue. -/
def MCPRouter.broadcast_event (router : MCPRouter) (methodName : String) :
    MCPRouter :=
  if router.sessions.isEmpty then router
  else
    { router with
      sessions := router.sessions.map (fun kv =>
        (kv.1, if kv.2.active
               then kv.2.enqueue_message (.modelObj methodName)
               else kv.2)) }

/-- `MCPRouter._process_background`: iterate the dispatcher's items,
skipping falsy ones (`if result:` drops the `None` yielded for
notifications), enqueueing `model_dump(exclude_none=True)` of the rest.
The surrounding `except` is unreachable in the model (the embedded
dispatcher is total). -/
def MCPRouter.process_background (router : MCPRouter) (session : Session)
    (rpc_req : JsonRpcRequest) : Session :=
  (router.server.process_request rpc_req).foldl
    (fun sess item =>
      match item with
      | .yieldNone => sess
      | it => sess.enqueue_message (.dictMsg it.dump))
    session

/-- `MCPRouter._create_session`: session id from the client (when truthy)
or a fresh UUID; the session is created only when absent; the first item
the dispatcher yields becomes the HTTP body (500 when it is `None`), with
the session id echoed in the `Mcp-Session-Id` header. -/
def MCPRouter.create_session (router : MCPRouter) (now : Nat)
    (rpc_req : JsonRpcRequest) (existing_session_id : Option String) :
    HttpResponse × MCPRouter :=
  let idPick :=
    match existing_session_id with
    | some s => if s = "" then router.genUuid else (s, router)
    | none => router.genUuid
  let sid := idPick.1
  let r1 := idPick.2
  let r2 :=
    if (assocGet r1.sessions sid).isSome then r1
    else { r1 with sessions := r1.sessions ++ [(sid, Session.new sid now)] }
  match (r2.server.process_request rpc_req).head? with
  | none =>
      ({ status := 500, body := .text "Initialization failed to produce response" }, r2)
  | some .yieldNone =>
      ({ status := 500, body := .text "Initialization failed to produce response" }, r2)
  | some item =>
      ({ status := 200, body := .jsonBody item.dump, sessionHeader := some sid }, r2)

/-- `JsonRpcRequest(**body)`: the `TypeError` of `**` on a non-mapping and
pydantic validation of the four fields (`jsonrpc` must be the literal
`"2.0"` when present, `method` a required string, `params` an object or
null, `id` a string, an integer, or null; extra keys are ignored). -/
def validateJsonRpcRequest (body : Json) : Except String JsonRpcRequest :=
  match body with
  | .obj kvs => do
      match assocGet kvs "jsonrpc" with
      | none => pure ()
      | some (.str "2.0") => pure ()
      | some _ => throw "ValidationError: jsonrpc"
      let method ←
        match assocGet kvs "method" with
        | some (.str m) => pure m
        | some _ => throw "ValidationError: method"
        | none => throw "ValidationError: method missing"
      let params ←
        match assocGet kvs "params" with
        | none => pure none
        | some .null => pure none
        | some (.obj d) => pure (some d)
        | some _ => throw "ValidationError: params"
      let rid ←
        match assocGet kvs "id" with
        | none => pure (none : Option RpcId)
        | some .null => pure none
        | some (.str s) => pure (some (RpcId.str s))
        | some (.num n) => pure (some (RpcId.num n))
        | some _ => throw "ValidationError: id"
      return { method := method, params := params, id := rid }
  | _ => .error "TypeError: argument after ** must be a mapping"

/-- Whether the pattern (first argument) is an initial segment of the
text (second argument). -/
def charListStartsWith : List Char → List Char → Bool
  | [], _ => true
  | _ :: _, [] => false
  | c :: cs, d :: ds => c = d && charListStartsWith cs ds

/-- Whether the pattern occurs inside the text. -/
def charListHasSub (needle : List Char) : List Char → Bool
  | [] => charListStartsWith needle []
  | d :: ds => charListStartsWith needle (d :: ds) || charListHasSub needle ds

/-- Python `needle in hay` on strings. -/
def strContainsSub (hay needle : String) : Bool :=
  charListHasSub needle.toList hay.toList

/-- `MCPRouter._handle_post`.  Inputs: the current time, the
`Content-Type` header, the parsed JSON body (or the parse failure), and
the `Mcp-Session-Id` header.  The result is the HTTP response, the
updated router, and the background task scheduled (if any) — or, as
`Except.error`, an exception escaping the handler (which is exactly what
happens to a `JsonRpcRequest` validation failure: the construction is not
wrapped in `try/except`). -/
def MCPRouter.handle_post (router : MCPRouter) (now : Nat)
    (contentType : String) (parsedBody : Except String Json)
    (sessionHeader : Option String) :
    Except String (HttpResponse × MCPRouter × Option (String × JsonRpcRequest)) :=
  if !(strContainsSub contentType "application/json") then
    .ok ({ status := 415, body := .text "content-type must be application/json" },
         router, none)
  else
    match parsedBody with
    | .error e =>
        .ok ({ status := 400,
               body := .jsonBody (dumpJsonRpcError none PARSE_ERROR
                 ("cannot parse request body: " ++ e) none) }, router, none)
    | .ok (.arr _) =>
        .ok ({ status := 400,
               body := .jsonBody (dumpJsonRpcError none INVALID_REQUEST
                 "batching is not supported" none) }, router, none)
    | .ok body =>
        match validateJsonRpcRequest body with
        | .error e => .error e
        | .ok rpc_req =>
            if rpc_req.method = "initialize" then
              let p := router.create_session now rpc_req sessionHeader
              .ok (p.1, p.2, none)
            else if sessionHeader.getD "" = "" then
              .ok ({ status := 400, body := .text "Mcp-Session-Id is missing" },
                   router, none)
            else
              let sid := sessionHeader.getD ""
              match assocGet router.sessions sid with
              | none =>
                  .ok ({ status := 404,
                         body := .text ("session " ++ sid ++ " is not found") },
                       router, none)
              | some session =>
                  .ok ({ status := 202, body := .empty },
                       { router with
                         sessions := assocSet router.sessions sid (session.touch now) },
                       some (sid, rpc_req))

/-- `MCPRouter._handle_delete`: pop the session, terminate it, 200; 400
without a session header, 404 for an unknown one.  The third component is
the popped session after `terminate()` (the object a live SSE stream may
still reference). -/
def MCPRouter.handle_delete (router : MCPRouter)
    (sessionHeader : Option String) :
    HttpResponse × MCPRouter × Option Session :=
  if sessionHeader.getD "" = "" then
    ({ status := 400, body := .empty }, router, none)
  else
    let sid := sessionHeader.getD ""
    match assocGet router.sessions sid with
    | none => ({ status := 404, body := .empty }, router, none)
    | some session =>
        ({ status := 200, body := .empty },
         { router with sessions := assocErase router.sessions sid },
         some session.terminate)

/-! ## Tool-name validation (`ToolDefinition`, `mcp/schemas/tools.py`) -/

/-- A character of the class `[a-zA-Z0-9_.-]`. -/
def toolNameChar (c : Char) : Bool :=
  c.isAlpha || c.isDigit || c = '_' || c = '.' || c = '-'

/-- Python `re.match(r'^[a-zA-Z0-9_.-]+$', v)` as a boolean: one or more
name characters spanning the whole string (`$` also matches just before a
single trailing newline, as in Python). -/
def nameMatchesPattern (v : String) : Bool :=
  let cs := v.toList
  let core := if cs.getLast? = some '\n' then cs.dropLast else cs
  !core.isEmpty && core.all toolNameChar

/-- The body of `ToolDefinition.validate_name`.  In the source this
validator is stacked *under* `@classmethod` (the reverse of the order
pydantic v2 requires), so pydantic never registers it and it does not run
during construction. -/
def ToolDefinition.validate_name (v : String) : Except String String :=
  if nameMatchesPattern v then .ok v
  else .error ("Invalid tool name \x27" ++ v ++ "\x27")

/-- Constructing a `ToolDefinition` as the code actually validates it:
only `Field(min_length=1, max_length=128)` applies, because the regex
validator is never registered (see `ToolDefinition.validate_name`). -/
def ToolDefinition.construct (name : String) (title : Option String)
    (description : String) (inputSchema : List (String × Json))
    (outputSchema : Option (List (String × Json)))
    (icons : Option (List Icon)) : Except String ToolDefinition :=
  if name.length < 1 || 128 < name.length then
    .error "ValidationError: ToolDefinition.name length"
  else
    .ok { name := name, title := title, description := description,
          inputSchema := inputSchema, outputSchema := outputSchema,
          icons := icons }

/-- C6 (code_bug): construction accepts `"bad name"` although it does not
match `^[A-Za-z0-9_.-]+$` — the regex validator is disabled by the
decorator order — while the empty string is still rejected (length) and
`"a.b-c_1"` is accepted, as the claim expects. -/
theorem mcp_C6_theorem :
    ToolDefinition.construct "bad name" none "d" [] none none =
      .ok { name := "bad name", description := "d", inputSchema := [] } ∧
    nameMatchesPattern "bad name" = false ∧
    ToolDefinition.validate_name "bad name" =
      .error "Invalid tool name \x27bad name\x27" ∧
    ToolDefinition.construct "" none "d" [] none none =
      .error "ValidationError: ToolDefinition.name length" ∧
    ToolDefinition.construct "a.b-c_1" none "d" [] none none =
      .ok { name := "a.b-c_1", description := "d", inputSchema := [] } ∧
    nameMatchesPattern "a.b-c_1" = true ∧
    nameMatchesPattern "" = false := by
  refine ⟨rfl, by decide, ?_, rfl, rfl, by decide, by decide⟩
  unfold ToolDefinition.validate_name
  rw [show nameMatchesPattern "bad name" = false by decide]
  rfl

/-! ## C5: a validation failure escapes `_handle_post` -/

/-- The router as constructed at startup: no sessions yet. -/
def initialRouter : MCPRouter where
  server := emptyServer
  sessions := []
  uuid_counter := 0

/-- C5 (code_bug): a well-formed-JSON body that fails `JsonRpcRequest`
validation (here `jsonrpc: "1.0"`) makes the exception escape
`_handle_post` — the construction is not wrapped — while the neighbouring
parse-failure path does return a JSON-RPC error body. -/
theorem mcp_C5_theorem :
    initialRouter.handle_post 0 "application/json"
        (.ok (.obj [("jsonrpc", .str "1.0"), ("method", .str "ping"),
                    ("id", .num 1)])) none =
      .error "ValidationError: jsonrpc" ∧
    initialRouter.handle_post 0 "application/json"
        (.error "Expecting value") none =
      .ok ({ status := 400,
             body := .jsonBody (dumpJsonRpcError none PARSE_ERROR
               "cannot parse request body: Expecting value" none) },
           initialRouter, none) := by
  constructor <;> rfl

/-! ## C7: the fan-out path enqueues the model object itself -/

/-- A freshly created, active session used in concrete evaluations. -/
def sess7 : Session := Session.new "s1" 0

/-- A router with exactly the one active session `s1`. -/
def router7 : MCPRouter where
  server := emptyServer
  sessions := [("s1", sess7)]
  uuid_counter := 0

/-- C7 (code_bug): `_broadcast_event` enqueues the notification model
object itself, which `json.dumps` cannot serialize — whereas everything
`_process_background` enqueues is a plain dict. -/
theorem mcp_C7_theorem :
    assocGet (router7.broadcast_event "notifications/tools/list_changed").sessions
        "s1" =
      some { sess7 with
              msg_queue := [.modelObj "notifications/tools/list_changed"] } ∧
    (PyMsg.modelObj "notifications/tools/list_changed").jsonSerializable = false ∧
    (router7.process_background sess7
        { method := "ping", id := some (.num 5) }).msg_queue.all
      (fun m => m.jsonSerializable) = true := by
  refine ⟨rfl, rfl, rfl⟩

/-! ## Session-table lemmas -/

theorem assocGet_append_self {α : Type} (l : List (String × α)) (k : String)
    (v : α) (h : assocGet l k = none) :
    assocGet (l ++ [(k, v)]) k = some v := by
  induction l with
  | nil => simp [assocGet]
  | cons hd tl ih =>
      simp only [assocGet] at h ⊢
      by_cases hk : hd.1 = k
      · simp [hk] at h
      · simp only [hk, if_false] at h ⊢
        exact ih h

theorem assocGet_some_mem {α : Type} (l : List (String × α)) (k : String)
    (v : α) (h : assocGet l k = some v) : k ∈ l.map Prod.fst := by
  induction l with
  | nil => simp [assocGet] at h
  | cons hd tl ih =>
      simp only [assocGet] at h
      by_cases hk : hd.1 = k
      · simp [hk]
      · simp only [hk, if_false] at h
        simp [ih h]

theorem assocGet_eq_none_of_not_mem {α : Type} (l : List (String × α))
    (k : String) (h : k ∉ l.map Prod.fst) : assocGet l k = none := by
  induction l with
  | nil => rfl
  | cons hd tl ih =>
      simp only [List.map_cons, List.mem_cons, not_or] at h
      have hk : hd.1 ≠ k := fun heq => h.1 heq.symm
      simp only [assocGet, hk, if_false]
      exact ih h.2

theorem assocGet_erase_self {α : Type} (l : List (String × α)) (k : String)
    (hnodup : (l.map Prod.fst).Nodup) :
    assocGet (assocErase l k) k = none := by
  induction l with
  | nil => rfl
  | cons hd tl ih =>
      simp only [List.map_cons, List.nodup_cons] at hnodup
      simp only [assocErase]
      by_cases hk : hd.1 = k
      · rw [if_pos hk]
        exact assocGet_eq_none_of_not_mem tl k (hk ▸ hnodup.1)
      · rw [if_neg hk]
        simp only [assocGet, hk, if_false]
        exact ih hnodup.2

/-! ## C9: idempotence of `initialize` per session id -/

/-- The `result` member of a JSON response body. -/
def responseResult (r : HttpResponse) : Option Json :=
  match r.body with
  | .jsonBody (.obj kvs) => assocGet kvs "result"
  | _ => none

theorem responseResult_envelope (st : Nat) (hdr : Option String)
    (id : Option RpcId) (res : Json) :
    responseResult ⟨st, .jsonBody (dumpEnvelope id res), hdr⟩ = some res := by
  cases id <;> rfl

/-- Membership in the key list makes `assocGet` succeed. -/
theorem mem_assocGet_isSome {α : Type} (l : List (String × α)) (k : String)
    (h : k ∈ l.map Prod.fst) : (assocGet l k).isSome = true := by
  induction l with
  | nil => simp at h
  | cons hd tl ih =>
      simp only [List.map_cons, List.mem_cons] at h
      simp only [assocGet]
      by_cases hk : hd.1 = k
      · simp [hk]
      · rcases h with heq | hmem
        · exact absurd heq.symm hk
        · simp only [hk, if_false]
          exact ih hmem

theorem responseResult_initDump (st : Nat) (hdr : Option String)
    (id : Option RpcId) (r : JsonRpcResponseInitializeResult) :
    responseResult ⟨st, .jsonBody ((OutItem.initResponse id r).dump), hdr⟩ =
      some r.dump := by
  cases id <;> rfl

/-- Reduction of `_create_session` for an `initialize` request carrying a
truthy client session id. -/
theorem create_session_initialize (router : MCPRouter) (now : Nat)
    (req : JsonRpcRequest) (s : String) (hs : s ≠ "")
    (hm : req.method = "initialize") :
    router.create_session now req (some s) =
      ({ status := 200,
         body := .jsonBody (OutItem.dump (.initResponse req.id
           (JsonRpcResponseInitializeResult.new router.server.name
             MCPServer.VERSION))),
         sessionHeader := some s },
       if (assocGet router.sessions s).isSome then router
       else { router with sessions := router.sessions ++ [(s, Session.new s now)] }) := by
  by_cases hmem : (assocGet router.sessions s).isSome
  · simp [MCPRouter.create_session, hs, hmem, MCPServer.process_request, hm,
      MCPServer.handle_initialize]
  · simp [MCPRouter.create_session, hs, hmem, MCPServer.process_request, hm,
      MCPServer.handle_initialize]

/-- C9 (confirmed): two `initialize` POSTs carrying the same session id
`s` return equal `result` payloads; the second call leaves the session
table untouched (it reuses the session created or found by the first
call, whose `created_at` stamp survives); and afterwards `s` is bound
exactly once in the table. -/
theorem mcp_C9_theorem (router : MCPRouter) (now1 now2 : Nat)
    (req1 req2 : JsonRpcRequest) (s : String)
    (hs : s ≠ "")
    (h1 : req1.method = "initialize") (h2 : req2.method = "initialize")
    (hnodup : (router.sessions.map Prod.fst).Nodup) :
    responseResult (router.create_session now1 req1 (some s)).1 =
      some (JsonRpcResponseInitializeResult.new router.server.name "1.0.0").dump ∧
    responseResult
        (((router.create_session now1 req1 (some s)).2.create_session
          now2 req2 (some s)).1) =
      responseResult (router.create_session now1 req1 (some s)).1 ∧
    ((router.create_session now1 req1 (some s)).2.create_session
        now2 req2 (some s)).2.sessions =
      (router.create_session now1 req1 (some s)).2.sessions ∧
    (assocGet router.sessions s = none →
      assocGet (router.create_session now1 req1 (some s)).2.sessions s =
        some (Session.new s now1)) ∧
    ((((router.create_session now1 req1 (some s)).2.create_session
        now2 req2 (some s)).2.sessions.map Prod.fst).count s = 1) := by
  have hA := create_session_initialize router now1 req1 s hs h1
  by_cases hmem : (assocGet router.sessions s).isSome
  · rw [if_pos hmem] at hA
    have hB := create_session_initialize router now2 req2 s hs h2
    rw [if_pos hmem] at hB
    refine ⟨?_, ?_, ?_, ?_, ?_⟩
    · simp [hA, responseResult_initDump, MCPServer.VERSION]
    · simp [hA, hB, responseResult_initDump]
    · simp [hA, hB]
    · intro habs
      rw [habs] at hmem
      simp at hmem
    · simp only [hA, hB]
      obtain ⟨v, hv⟩ := Option.isSome_iff_exists.mp hmem
      exact List.count_eq_one_of_mem hnodup (assocGet_some_mem _ _ _ hv)
  · have hnone : assocGet router.sessions s = none :=
      Option.not_isSome_iff_eq_none.mp hmem
    rw [if_neg hmem] at hA
    have hfound : assocGet
        (router.sessions ++ [(s, Session.new s now1)]) s =
        some (Session.new s now1) :=
      assocGet_append_self router.sessions s _ hnone
    have hB := create_session_initialize
      { router with sessions := router.sessions ++ [(s, Session.new s now1)] }
      now2 req2 s hs h2
    rw [if_pos (by simp only []; rw [hfound]; rfl)] at hB
    refine ⟨?_, ?_, ?_, ?_, ?_⟩
    · simp [hA, responseResult_initDump, MCPServer.VERSION]
    · simp [hA, hB, responseResult_initDump]
    · simp [hA, hB]
    · intro _
      simp only [hA]
      exact hfound
    · simp only [hA, hB]
      have hkeys : ((router.sessions ++ [(s, Session.new s now1)]).map
          Prod.fst) = router.sessions.map Prod.fst ++ [s] := by simp
      have hz : (router.sessions.map Prod.fst).count s = 0 := by
        refine List.count_eq_zero_of_not_mem ?_
        intro hmem2
        have := mem_assocGet_isSome router.sessions s hmem2
        rw [hnone] at this
        simp at this
      simp only [hkeys, List.count_append, hz]
      simp

/-- C9 witness: the theorem applied to two concrete `initialize` POSTs on
a fresh router, both carrying session id `abc`. -/
theorem mcp_C9_witness :
    responseResult (initialRouter.create_session 5
        { method := "initialize", id := some (.num 1) } (some "abc")).1 =
      some (JsonRpcResponseInitializeResult.new "finance" "1.0.0").dump ∧
    assocGet ((initialRouter.create_session 5
        { method := "initialize", id := some (.num 1) }
        (some "abc")).2.create_session 9
        { method := "initialize", id := some (.num 2) }
        (some "abc")).2.sessions "abc" = some (Session.new "abc" 5) := by
  have h := mcp_C9_theorem initialRouter 5 9
    { method := "initialize", id := some (.num 1) }
    { method := "initialize", id := some (.num 2) } "abc"
    (by decide) rfl rfl (by simp [initialRouter])
  refine ⟨h.1, ?_⟩
  have h3 := h.2.2.1
  have h4 := h.2.2.2.1 (by rfl)
  rw [show ((initialRouter.create_session 5
      { method := "initialize", id := some (.num 1) }
      (some "abc")).2.create_session 9
      { method := "initialize", id := some (.num 2) }
      (some "abc")).2.sessions =
    (initialRouter.create_session 5
      { method := "initialize", id := some (.num 1) }
      (some "abc")).2.sessions from h3]
  exact h4

/-! ## C10: termination, DELETE, and the ensuing 404 -/

/-- C10 (confirmed): `terminate` deactivates the session and empties its
queue; any later enqueue is a no-op; DELETE with the session's id removes
it from the table, terminates the popped object, and returns 200; and a
later non-`initialize` POST referencing the same id returns 404. -/
theorem mcp_C10_theorem (s : Session) (m : PyMsg) (router : MCPRouter)
    (sid : String) (sess : Session) (now : Nat) (body : Json)
    (req : JsonRpcRequest)
    (hsid : sid ≠ "")
    (hfound : assocGet router.sessions sid = some sess)
    (hnodup : (router.sessions.map Prod.fst).Nodup)
    (hval : validateJsonRpcRequest body = .ok req)
    (hmeth : req.method ≠ "initialize") :
    s.terminate.active = false ∧
    s.terminate.msg_queue = [] ∧
    s.terminate.enqueue_message m = s.terminate ∧
    router.handle_delete (some sid) =
      ({ status := 200, body := .empty },
       { router with sessions := assocErase router.sessions sid },
       some sess.terminate) ∧
    assocGet (assocErase router.sessions sid) sid = none ∧
    MCPRouter.handle_post
        { router with sessions := assocErase router.sessions sid } now
        "application/json" (.ok body) (some sid) =
      .ok ({ status := 404,
             body := .text ("session " ++ sid ++ " is not found") },
           { router with sessions := assocErase router.sessions sid }, none) := by
  have herase : assocGet (assocErase router.sessions sid) sid = none :=
    assocGet_erase_self router.sessions sid hnodup
  have hct : strContainsSub "application/json" "application/json" = true := by
    decide
  refine ⟨rfl, rfl, rfl, ?_, herase, ?_⟩
  · simp [MCPRouter.handle_delete, hsid, hfound]
  · cases body with
    | obj kvs =>
        simp [MCPRouter.handle_post, hct, hval, hmeth, hsid, herase]
    | null => simp [validateJsonRpcRequest] at hval
    | bool b => simp [validateJsonRpcRequest] at hval
    | num n => simp [validateJsonRpcRequest] at hval
    | str t => simp [validateJsonRpcRequest] at hval
    | arr elems => simp [validateJsonRpcRequest] at hval

/-- A router holding exactly one fresh session `s1`. -/
def router10 : MCPRouter where
  server := emptyServer
  sessions := [("s1", Session.new "s1" 0)]
  uuid_counter := 0

/-- C10 witness: the theorem applied to `router10`, deleting `s1` and then
POSTing a `tools/list` request that references it. -/
theorem mcp_C10_witness :
    router10.handle_delete (some "s1") =
      ({ status := 200, body := .empty },
       { router10 with sessions := assocErase router10.sessions "s1" },
       some (Session.new "s1" 0).terminate) ∧
    MCPRouter.handle_post
        { router10 with sessions := assocErase router10.sessions "s1" } 3
        "application/json"
        (.ok (.obj [("jsonrpc", .str "2.0"), ("method", .str "tools/list"),
                    ("id", .num 1)])) (some "s1") =
      .ok ({ status := 404, body := .text "session s1 is not found" },
           { router10 with sessions := assocErase router10.sessions "s1" },
           none) := by
  have h := mcp_C10_theorem (Session.new "x" 0) (.modelObj "m") router10 "s1"
    (Session.new "s1" 0) 3
    (.obj [("jsonrpc", .str "2.0"), ("method", .str "tools/list"),
           ("id", .num 1)])
    { method := "tools/list", params := none, id := some (.num 1) }
    (by decide) rfl (by simp [router10]) rfl (by decide)
  exact ⟨h.2.2.2.1, h.2.2.2.2.2⟩
